import Mathlib

/-!
# agentstash — verification of the backup/restore orchestration layer

Shallow embedding of the agent-aware orchestration core of the
`agentstash` CLI (TypeScript): the passphrase precedence chain, the
category resolver, the snapshot time-matcher, the backup orchestrator
loop, the retention reporting wrapper, agent selection, and the
capability-probe call sites of the registry and the health aggregator.

Modelling conventions:
* JavaScript control flow that can end in `throw` (a catchable
  exception) or `process.exit(code)` (unconditional termination) is
  modelled by `JsOutcome`: `try/catch` intercepts `.thrown`, never
  `.exited`.
* JavaScript string truthiness (`if (s)` on `string | undefined`) is
  `truthy : Option String → Bool` — `undefined` and `""` are falsy.
* External collaborators (the restic engine, the OS keychain, the
  filesystem, `Date` parsing, `homedir()`) are parameters: functions or
  values supplied by the environment, exactly at the granularity the
  source calls them.
* Observable side effects that the claims talk about (warnings, errors,
  engine invocations, reported key/value lines) are collected in an
  event trace; purely decorative output (spinners, colours, headers) is
  not modelled.
-/

namespace Agentstash

/-- Outcome of running a piece of JS code: a normal value, a thrown
exception (catchable by `try/catch`), or `process.exit code`
(terminates the process; not catchable). -/
inductive JsOutcome (α : Type) where
  | ok : α → JsOutcome α
  | thrown : String → JsOutcome α
  | exited : Nat → JsOutcome α
deriving Repr, DecidableEq

/-- Sequencing: exceptions and exits propagate. -/
def JsOutcome.bind {α β : Type} : JsOutcome α → (α → JsOutcome β) → JsOutcome β
  | .ok a, f => f a
  | .thrown e, _ => .thrown e
  | .exited c, _ => .exited c

/-- JS truthiness of a `string | undefined` value: `undefined` and the
empty string are falsy. -/
def truthy : Option String → Bool
  | none => false
  | some s => !(s == "")

/-- Embedding of `resolvePassphrase` (src/cli/backup.ts lines 21–42; the same chain is
repeated verbatim in the restore, forget and snapshots commands):
explicit `--passphrase` flag if truthy, else `AGENTSTASH_PASSPHRASE`
environment value if truthy, else the keychain lookup if truthy, else
`process.exit(1)`. The keychain lookup is an external suspending call
whose outcome (value, absence, or rejection) is a parameter. -/
def resolvePassphrase (explicit envVal : Option String)
    (keychainLookup : JsOutcome (Option String)) : JsOutcome String :=
  if truthy explicit then .ok (explicit.getD "")
  else if truthy envVal then .ok (envVal.getD "")
  else
    keychainLookup.bind fun fromKeychain =>
      if truthy fromKeychain then .ok (fromKeychain.getD "")
      else .exited 1

/-! ## Snapshot time-matcher (src/cli/restore command, `findSnapshotByTime`) -/

/-- A restic snapshot as consumed by the orchestration layer. The engine
reports `time` as a date string; the layer immediately converts it with
`new Date(snap.time).getTime()`, so the embedding carries the resulting
instant (milliseconds since the epoch) directly. -/
structure ResticSnapshot where
  id : String
  short_id : String
  time : Int
  tags : List String
deriving Repr, DecidableEq

/-- The `multipliers` record of `findSnapshotByTime`, as an ordered
association list (keys as character lists): fixed unit durations in
milliseconds. -/
def multipliers : List (List Char × Int) :=
  [("minute".toList, 60000),
   ("hour".toList, 3600000),
   ("day".toList, 86400000),
   ("week".toList, 604800000),
   ("month".toList, 2592000000)]

/-- Evaluation of `parseInt(digits, 10)` on a run of decimal digits. -/
def digitsToNat (cs : List Char) : Nat :=
  cs.foldl (fun n c => n * 10 + (c.toNat - 48)) 0

/-- The relative-time regex
`/^(\d+)\s+(minute|hour|day|week|month)s?\s+ago$/i` of
`findSnapshotByTime`, together with `amount * multipliers[unit]`: on a
match, returns the offset `amount * unitMs` in milliseconds; otherwise
`none`. Case-insensitivity (`/i`) is modelled by lowercasing the input
character-wise; `\d` is the ASCII digit class and `\s` is modelled by
`Char.isWhitespace` (space, tab, CR, LF — the JS class additionally
accepts rarer form-feed and Unicode spaces). -/
def parseRelativeMs (s : String) : Option Int :=
  let cs := s.toList.map Char.toLower
  let digits := cs.takeWhile Char.isDigit
  let rest1 := cs.dropWhile Char.isDigit
  if digits.isEmpty then none
  else if (rest1.takeWhile Char.isWhitespace).isEmpty then none
  else
    let rest2 := rest1.dropWhile Char.isWhitespace
    match multipliers.find? (fun u => u.1.isPrefixOf rest2) with
    | none => none
    | some u =>
      let rest3 := rest2.drop u.1.length
      let rest4 := if rest3.head? = some 's' then rest3.tail else rest3
      if (rest4.takeWhile Char.isWhitespace).isEmpty then none
      else if rest4.dropWhile Char.isWhitespace = ['a', 'g', 'o'] then
        some ((digitsToNat digits : Int) * u.2)
      else none

/-- Distance `|snapTime - targetTime|` for one snapshot (`Math.abs` of the
difference of two instants). -/
def snapDiff (targetTime : Int) (snap : ResticSnapshot) : Nat :=
  (snap.time - targetTime).natAbs

/-- The closest-snapshot loop of `findSnapshotByTime`, after the first
iteration has necessarily installed the head as `best` (any finite
`diff` beats the initial `Infinity`): walks the rest, replacing `best`
only on a strictly smaller distance. -/
def findClosestGo (targetTime : Int) :
    List ResticSnapshot → ResticSnapshot → Nat → ResticSnapshot
  | [], best, _ => best
  | snap :: rest, best, bestDiff =>
    if snapDiff targetTime snap < bestDiff then
      findClosestGo targetTime rest snap (snapDiff targetTime snap)
    else
      findClosestGo targetTime rest best bestDiff

/-- Full selection loop of `findSnapshotByTime`:
`best = null, bestDiff = Infinity`, then for each snapshot in order,
update on `diff < bestDiff`. -/
def findClosest (snapshots : List ResticSnapshot) (targetTime : Int) :
    Option ResticSnapshot :=
  match snapshots with
  | [] => none
  | s :: rest => some (findClosestGo targetTime rest s (snapDiff targetTime s))

/-- Embedding of `findSnapshotByTime(snapshots, timeStr)` (restore command): resolve
the target instant — the relative grammar against `Date.now()` (the
`now` parameter), else absolute parsing by `new Date(timeStr).getTime()`
(the external `jsDateParse` parameter, `none` standing for `NaN`, in
which case the command exits fatally) — then run the closest-snapshot
loop. -/
def findSnapshotByTime (jsDateParse : String → Option Int) (now : Int)
    (snapshots : List ResticSnapshot) (timeStr : String) :
    JsOutcome (Option ResticSnapshot) :=
  match parseRelativeMs timeStr with
  | some offset => .ok (findClosest snapshots (now - offset))
  | none =>
    match jsDateParse timeStr with
    | none => .exited 1
    | some t => .ok (findClosest snapshots t)

/-! ## Agent catalog data model (src/core/agents/types.ts) -/

/-- Result of invoking a JS probe function (`detectInstalled()`,
`isRunning()`): a returned boolean, or a thrown exception / rejected
promise. -/
inductive ProbeResult where
  | ok : Bool → ProbeResult
  | exn : String → ProbeResult
deriving Repr, DecidableEq

/-- Embedding of `CategoryRule` (types.ts): per-category include-pattern
lists for the backup and restore directions. -/
structure CategoryRule where
  description : String
  backupIncludes : List String
  restoreIncludes : List String
deriving Repr, DecidableEq

/-- Embedding of `DataDir` (types.ts). -/
structure DataDir where
  path : String
  description : String
  critical : Bool
deriving Repr, DecidableEq

/-- Embedding of `AgentDefinition` (types.ts). The categories record is
an association list with unique keys in insertion order. The probe
function values are represented by the outcome of calling them. -/
structure AgentDefinition where
  id : String
  displayName : String
  description : String
  dataDirs : List DataDir
  categories : List (String × CategoryRule)
  excludes : List String
  detectInstalled : ProbeResult
  isRunning : Option ProbeResult
deriving Repr, DecidableEq

/-- Embedding of `getAgent(id)` (registry.ts): lookup by identifier in
the registry map, whose contents are the registered definitions (unique
ids, registration order). -/
def getAgent (registry : List AgentDefinition) (id : String) :
    Option AgentDefinition :=
  registry.find? (fun a => a.id == id)

/-- Embedding of `getInstalledAgents()` (registry.ts lines 17–19):
`getAllAgents().filter((a) => a.detectInstalled())`. A JS `filter`
whose predicate throws propagates the exception to the caller. -/
def getInstalledAgents : List AgentDefinition → JsOutcome (List AgentDefinition)
  | [] => .ok []
  | a :: rest =>
    match a.detectInstalled with
    | .exn e => .thrown e
    | .ok b =>
      (getInstalledAgents rest).bind fun tail =>
        .ok (if b then a :: tail else tail)

/-! ## Configuration data model (src/core/config.ts) -/

/-- Embedding of the storage provider enumeration. -/
inductive Provider where
  | r2 | s3 | b2 | minio
deriving Repr, DecidableEq

/-- Embedding of `StorageConfig` (config.ts). -/
structure StorageConfig where
  provider : Provider
  bucket : String
  accountId : Option String
  accessKeyId : String
  secretAccessKey : String
  endpoint : Option String
  region : Option String
  jurisdiction : Option String
deriving Repr, DecidableEq

/-- Embedding of `RetentionConfig` (config.ts): the four retention
counts. -/
structure RetentionConfig where
  keepLast : Nat
  keepDaily : Nat
  keepWeekly : Nat
  keepMonthly : Nat
deriving Repr, DecidableEq

/-- Embedding of `DaemonConfig` (config.ts). -/
structure DaemonConfig where
  enabled : Bool
  intervalMinutes : Nat
  quietMinutes : Nat
deriving Repr, DecidableEq

/-- Embedding of `AgentConfig` (config.ts): one configured agent. -/
structure AgentConfig where
  id : String
  dataDir : Option String
  enabled : Bool
  excludes : Option (List String)
deriving Repr, DecidableEq

/-- Embedding of `AgentstashConfig` (config.ts). -/
structure AgentstashConfig where
  agents : List AgentConfig
  storage : StorageConfig
  retention : RetentionConfig
  daemon : DaemonConfig
  exclude : List String
  resticVersion : String
deriving Repr, DecidableEq

/-- Embedding of `getStorageEndpoint` (config.ts lines 80–98): the
explicit endpoint if truthy, else a provider-derived URL; R2 without an
account id and MinIO without an endpoint throw. -/
def getStorageEndpoint (storage : StorageConfig) : JsOutcome String :=
  if truthy storage.endpoint then .ok (storage.endpoint.getD "")
  else
    match storage.provider with
    | .r2 =>
      if !truthy storage.accountId then .thrown "R2 requires an accountId"
      else
        let jur := if truthy storage.jurisdiction
          then "." ++ storage.jurisdiction.getD "" else ""
        .ok ("https://" ++ storage.accountId.getD "" ++ jur
          ++ ".r2.cloudflarestorage.com")
    | .s3 => .ok ("https://s3." ++ storage.region.getD "us-east-1" ++ ".amazonaws.com")
    | .b2 => .ok "https://s3.us-west-004.backblazeb2.com"
    | .minio => .thrown "MinIO requires a custom endpoint"

/-- Embedding of `getResticRepoUrl` (config.ts lines 104–107). -/
def getResticRepoUrl (storage : StorageConfig) : JsOutcome String :=
  (getStorageEndpoint storage).bind fun endpoint =>
    .ok ("s3:" ++ endpoint ++ "/" ++ storage.bucket)

/-- Embedding of `expandHome` (repeated in the backup, restore, status
and health modules): resolve a leading tilde against the home
directory. The JS `p.replace("~", home)` replaces only the first
occurrence, which under `p.startsWith("~/")` is the leading character;
the `startsWith` test is expressed on the character list. -/
def expandHome (home p : String) : String :=
  if p.toList.take 2 = ['~', '/'] then home ++ String.mk (p.toList.drop 1)
  else if p = "~" then home
  else p

/-! ## Observable effects of the CLI commands -/

/-- Embedding of `ResticBackupSummary` (engine-reported backup
summary). -/
structure ResticBackupSummary where
  files_new : Nat
  files_changed : Nat
  files_unmodified : Nat
  data_added : Nat
  total_bytes_processed : Nat
  total_duration : Nat
  snapshot_id : String
deriving Repr, DecidableEq

/-- One observable effect of a command: a logged warning / error /
info / key-value line, or an invocation of the external engine
(`backup`, `forget`, `listSnapshots`) with the arguments the
orchestration layer passed. -/
inductive Event where
  | warn : String → Event
  | error : String → Event
  | info : String → Event
  | kv : String → String → Event
  | engineBackup : String → List String → List String →
      Option (List String) → Bool → Event
  | engineForget : Option (List String) → RetentionConfig → Event
  | engineList : Option (List String) → Event
deriving Repr, DecidableEq

/-- Embedding of `BackupOptions` (src/cli/backup.ts lines 12–19).
`dryRun` is consumed only through its truthiness, so it is carried as a
plain boolean; the `forget` flag must distinguish `undefined` from
`false` (`opts.forget !== false`), so it stays optional. -/
structure BackupOptions where
  passphrase : Option String
  agent : Option String
  only : Option String
  dryRun : Bool
  forget : Option Bool
deriving Repr, DecidableEq

/-- Property names every object literal inherits from
`Object.prototype` (its own property names in JS engines): a bracket
read `obj[name]` with one of these names and no own key yields the
inherited function — or, for `__proto__`, the prototype object — both
truthy. -/
def objectPrototypeKeys : List String :=
  ["constructor", "hasOwnProperty", "isPrototypeOf", "propertyIsEnumerable",
   "toLocaleString", "toString", "valueOf", "__defineGetter__",
   "__defineSetter__", "__lookupGetter__", "__lookupSetter__", "__proto__"]

/-- Result of the JS property read `agentDef.categories[only]`: an own
key yields its `CategoryRule`; a name inherited from
`Object.prototype` yields a truthy function/object that has no
`backupIncludes`/`restoreIncludes` fields; anything else is
`undefined`. -/
inductive CategoryLookup where
  | rule : CategoryRule → CategoryLookup
  | inherited : CategoryLookup
  | undefinedVal : CategoryLookup
deriving Repr, DecidableEq

/-- Embedding of the JS object property read
`agentDef.categories[only]`, prototype chain included: own keys first,
then the `Object.prototype` members, else `undefined`. -/
def lookupCategory (categories : List (String × CategoryRule)) (name : String) :
    CategoryLookup :=
  match categories.find? (fun c => c.1 == name) with
  | some c => .rule c.2
  | none => if name ∈ objectPrototypeKeys then .inherited else .undefinedVal

/-- Embedding of `getCategoryIncludes` (src/cli/backup.ts lines 56–74):
no category requested means no filter; an unknown agent is a fatal
exit; the category read `categories[only]` guards with the falsy check
`!categoryRule`, so only a name yielding `undefined` (neither an own
key nor inherited from `Object.prototype`) is a fatal exit reporting
the valid category names — an inherited name such as "toString" passes
the guard and `categoryRule.backupIncludes` is `undefined`, i.e. no
filter; an own key yields its `backupIncludes`. -/
def getCategoryIncludes (registry : List AgentDefinition) (agentId : String)
    (only : Option String) : List Event × JsOutcome (Option (List String)) :=
  if !truthy only then ([], .ok none)
  else
    match getAgent registry agentId with
    | none => ([.error ("Unknown agent: " ++ agentId)], .exited 1)
    | some agentDef =>
      match lookupCategory agentDef.categories (only.getD "") with
      | .undefinedVal =>
        ([.error ("Unknown category \"" ++ only.getD "" ++ "\" for agent "
            ++ agentDef.displayName),
          .info ("Valid categories: "
            ++ String.intercalate ", " (agentDef.categories.map (fun c => c.1)))],
         .exited 1)
      | .inherited => ([], .ok none)
      | .rule rule => ([], .ok (some rule.backupIncludes))

/-- Embedding of `getCategoryIncludes` of the restore command (identical
to the backup-side resolver except that it returns the category's
`restoreIncludes`, which is likewise `undefined` on a prototype-chain
hit). -/
def getCategoryIncludesRestore (registry : List AgentDefinition) (agentId : String)
    (only : Option String) : List Event × JsOutcome (Option (List String)) :=
  if !truthy only then ([], .ok none)
  else
    match getAgent registry agentId with
    | none => ([.error ("Unknown agent: " ++ agentId)], .exited 1)
    | some agentDef =>
      match lookupCategory agentDef.categories (only.getD "") with
      | .undefinedVal =>
        ([.error ("Unknown category \"" ++ only.getD "" ++ "\" for agent "
            ++ agentDef.displayName),
          .info ("Valid categories: "
            ++ String.intercalate ", " (agentDef.categories.map (fun c => c.1)))],
         .exited 1)
      | .inherited => ([], .ok none)
      | .rule rule => ([], .ok (some rule.restoreIncludes))

/-! ## Backup orchestrator (src/cli/backup.ts) -/

/-- Environment of a backup run: the registry, the filesystem existence
probe, the home directory, and the external backup engine (arguments:
resolved path, tags, excludes, includes, dry-run flag). -/
structure BackupEnv where
  registry : List AgentDefinition
  pathExists : String → Bool
  home : String
  engine : String → List String → List String → Option (List String) → Bool →
    Except String ResticBackupSummary

/-- Embedding of the effective directory list of `backupAgent`
(src/cli/backup.ts lines 105–107): the config's override directory as a
single synthetic entry if truthy, else the definition's directories. -/
def effectiveDirs (agentDef : AgentDefinition) (ac : AgentConfig) : List DataDir :=
  if truthy ac.dataDir then
    [{path := ac.dataDir.getD "", description := "Custom data directory",
      critical := true}]
  else agentDef.dataDirs

/-- Embedding of the liveness advisory of `backupAgent` (lines 95–102):
a running agent yields a warning and an informational line; the backup
proceeds regardless. -/
def runningWarnings (agentDef : AgentDefinition) : List Event :=
  match agentDef.isRunning with
  | some (.ok true) =>
    [.warn (agentDef.displayName ++ " is running. SQLite files may be locked."),
     .info "Backup will proceed but SQLite data may be inconsistent."]
  | _ => []

/-- Embedding of the per-directory loop of `backupAgent` (lines
109–171): skip (with a warning) a directory that does not exist; build
excludes, tags and includes; invoke the engine inside `try/catch`, so
an engine failure for one directory is logged and the loop
continues. -/
def backupDirs (env : BackupEnv) (agentDef : AgentDefinition) (ac : AgentConfig)
    (opts : BackupOptions) (globalExclude : List String) :
    List DataDir → List Event × JsOutcome Unit
  | [] => ([], .ok ())
  | dd :: rest =>
    let resolvedDir := expandHome env.home dd.path
    if !env.pathExists resolvedDir then
      let r := backupDirs env agentDef ac opts globalExclude rest
      (.warn ("Data directory not found: " ++ resolvedDir ++ " ("
          ++ dd.description ++ ")") :: r.1, r.2)
    else
      let excludes := agentDef.excludes ++ ac.excludes.getD [] ++ globalExclude
      let tags := ["agentstash", ac.id]
        ++ (if truthy opts.only then [opts.only.getD ""] else [])
      let cres := getCategoryIncludes env.registry ac.id opts.only
      match cres.2 with
      | .thrown e => (cres.1, .thrown e)
      | .exited c => (cres.1, .exited c)
      | .ok includes =>
        let r := backupDirs env agentDef ac opts globalExclude rest
        match env.engine resolvedDir tags excludes includes opts.dryRun with
        | .error err =>
          (cres.1 ++ Event.engineBackup resolvedDir tags excludes includes opts.dryRun
            :: Event.error err :: r.1, r.2)
        | .ok _summary =>
          (cres.1 ++ Event.engineBackup resolvedDir tags excludes includes opts.dryRun
            :: r.1, r.2)

/-- Embedding of `backupAgent` (src/cli/backup.ts lines 79–172): an
agent missing from the registry is a warning and a skip; a liveness
probe that rejects propagates; then the per-directory loop runs over
the effective directory list. -/
def backupAgent (env : BackupEnv) (globalExclude : List String)
    (ac : AgentConfig) (opts : BackupOptions) : List Event × JsOutcome Unit :=
  match getAgent env.registry ac.id with
  | none =>
    ([.warn ("Agent \"" ++ ac.id ++ "\" not found in registry, skipping")], .ok ())
  | some agentDef =>
    match agentDef.isRunning with
    | some (.exn e) => ([], .thrown e)
    | _ =>
      let r :=
        backupDirs env agentDef ac opts globalExclude (effectiveDirs agentDef ac)
      (runningWarnings agentDef ++ r.1, r.2)

/-- Embedding of the agent loop of `backupCommand` (src/cli/backup.ts
lines 204–206): back up each selected agent in order, sequentially. -/
def runBackupAgents (env : BackupEnv) (globalExclude : List String)
    (opts : BackupOptions) : List AgentConfig → List Event × JsOutcome Unit
  | [] => ([], .ok ())
  | ac :: rest =>
    let r := backupAgent env globalExclude ac opts
    match r.2 with
    | .ok _ =>
      let r2 := runBackupAgents env globalExclude opts rest
      (r.1 ++ r2.1, r2.2)
    | .thrown e => (r.1, .thrown e)
    | .exited c => (r.1, .exited c)

/-- Embedding of the agent-selection logic of `backupCommand`
(src/cli/backup.ts lines 182–201): with a truthy `--agent` flag, the
configured agent with that id (fatal exit when not configured);
otherwise the enabled subset of the configured agents; in either case a
resulting empty list is a fatal exit. -/
def determineAgentsToBackup (agents : List AgentConfig) (optAgent : Option String) :
    List Event × JsOutcome (List AgentConfig) :=
  let joined :=
    let j := String.intercalate ", " (agents.map (fun a => a.id))
    if j == "" then "(none)" else j
  let emptyCheck : List AgentConfig → List Event × JsOutcome (List AgentConfig) :=
    fun l =>
      if l.isEmpty then
        ([.error "No agents configured for backup.",
          .info "Run `agentstash setup` to configure agents."], .exited 1)
      else ([], .ok l)
  if truthy optAgent then
    match agents.find? (fun a => a.id == optAgent.getD "") with
    | none =>
      ([.error ("Agent \"" ++ optAgent.getD "" ++ "\" is not configured."),
        .info ("Configured agents: " ++ joined),
        .info "Run `agentstash setup` to configure agents."], .exited 1)
    | some ac => emptyCheck [ac]
  else emptyCheck (agents.filter (fun a => a.enabled))

/-! ## Retention reporting (src/cli/forget.ts) -/

/-- Environment of a `forget` run: the engine's `listSnapshots` results
before and after the prune (two separate observations of the
repository) and the `forget` call outcome, each as a function of the
tag filter. -/
structure ForgetEnv where
  listBefore : Option (List String) → List ResticSnapshot
  forgetResult : Option (List String) → RetentionConfig → Except String Unit
  listAfter : Option (List String) → List ResticSnapshot

/-- Embedding of `forgetCommand` (src/cli/forget.ts lines 102–139),
after config, passphrase and restic setup: build the tag filter from
the optional `--agent` flag, count the matching snapshots, delegate the
prune to the engine with the retention counts and the same filter,
count again, and report before / after / removed (`before - after`). A
failing engine `forget` is a fatal exit. -/
def forgetCommand (env : ForgetEnv) (retention : RetentionConfig)
    (optAgent : Option String) : List Event × JsOutcome Unit :=
  let tags := if truthy optAgent then some [optAgent.getD ""] else none
  let before := env.listBefore tags
  match env.forgetResult tags retention with
  | .error err =>
    ([.engineList tags, .engineForget tags retention, .error err], .exited 1)
  | .ok _ =>
    let after := env.listAfter tags
    let removed : Int := (before.length : Int) - after.length
    ([.engineList tags, .engineForget tags retention, .engineList tags,
      .kv "Before" (toString before.length ++ " snapshots"),
      .kv "After" (toString after.length ++ " snapshots"),
      .kv "Removed" (toString removed ++ " snapshots")], .ok ())

/-! ## Health aggregator (src/core/health.ts) -/

/-- Status of one health check. -/
inductive HealthStatus where
  | ok | warn | error
deriving Repr, DecidableEq

/-- Embedding of `HealthCheck` (health.ts). -/
structure HealthCheck where
  name : String
  status : HealthStatus
  message : String
deriving Repr, DecidableEq

/-- Environment of a health-check run: the restic installation state,
the loaded configuration, the registry, the filesystem probe, the
repository reachability result, and the home and config paths. -/
structure HealthEnv where
  resticInstalled : Bool
  resticVersion : String
  resticBinaryPath : String
  configPath : String
  config : Option AgentstashConfig
  registry : List AgentDefinition
  pathExists : String → Bool
  checkRepo : Bool
  home : String

/-- Embedding of the per-agent loop of `runHealthChecks` (health.ts
lines 223–296): unknown agent → warning; `detectInstalled()` (a throw
propagates) false → warning; then the data-directory existence check,
and — when the definition has a liveness probe — the nested process
check (a rejection propagates). -/
def agentChecks (env : HealthEnv) : List AgentConfig → JsOutcome (List HealthCheck)
  | [] => .ok []
  | ac :: rest =>
    match getAgent env.registry ac.id with
    | none =>
      (agentChecks env rest).bind fun tail =>
        .ok ({name := "Agent: " ++ ac.id, status := .warn,
              message := "Unknown agent (not in registry)"} :: tail)
    | some d =>
      match d.detectInstalled with
      | .exn e => .thrown e
      | .ok installed =>
        if !installed then
          (agentChecks env rest).bind fun tail =>
            .ok ({name := "Agent: " ++ d.displayName, status := .warn,
                  message := "Not installed on this system"} :: tail)
        else
          let dataDirs := if truthy ac.dataDir then [ac.dataDir.getD ""]
            else d.dataDirs.map (fun dd => dd.path)
          let dirMessages :=
            (dataDirs.filter (fun dir => !env.pathExists (expandHome env.home dir))).map
              (fun dir => expandHome env.home dir ++ " missing")
          let dirCheck := if dirMessages.isEmpty then
              {name := "Agent: " ++ d.displayName, status := HealthStatus.ok,
               message := "Installed ("
                 ++ String.intercalate ", " (dataDirs.map (expandHome env.home)) ++ ")"}
            else
              {name := "Agent: " ++ d.displayName, status := .error,
               message := "Data dir issue: " ++ String.intercalate "; " dirMessages}
          match d.isRunning with
          | none => (agentChecks env rest).bind fun tail => .ok (dirCheck :: tail)
          | some (.exn e) => .thrown e
          | some (.ok running) =>
            let runCheck := if running then
                {name := "  " ++ d.displayName ++ " process", status := .warn,
                 message := "Running (SQLite may be locked during backup)"}
              else
                {name := "  " ++ d.displayName ++ " process", status := HealthStatus.ok,
                 message := "Not running (safe to backup)"}
            (agentChecks env rest).bind fun tail => .ok (dirCheck :: runCheck :: tail)

/-- Embedding of `runHealthChecks(passphrase?)` (health.ts lines
178–327): the restic-binary check, the config check, the per-agent
checks (when a config is present), and the remote-repository check
(attempted only when a passphrase was supplied, otherwise a skipped
warning). -/
def runHealthChecks (env : HealthEnv) (passphrase : Option String) :
    JsOutcome (List HealthCheck) :=
  let resticCheck := if env.resticInstalled then
      {name := "Restic binary", status := HealthStatus.ok,
       message := "v" ++ env.resticVersion ++ " (" ++ env.resticBinaryPath ++ ")"}
    else
      {name := "Restic binary", status := HealthStatus.error,
       message := "Not installed. Run `agentstash setup`"}
  let configCheck := match env.config with
    | some _ => {name := "Config", status := HealthStatus.ok, message := env.configPath}
    | none => {name := "Config", status := HealthStatus.error,
               message := "Not found. Run `agentstash setup`"}
  match env.config with
  | none => .ok [resticCheck, configCheck]
  | some cfg =>
    let emptyWarn : List HealthCheck := if cfg.agents.isEmpty then
        [{name := "Agents", status := .warn,
          message := "No agents configured. Run `agentstash setup`"}]
      else []
    (agentChecks env cfg.agents).bind fun agentList =>
      let base := [resticCheck, configCheck] ++ emptyWarn ++ agentList
      if truthy passphrase then
        if env.checkRepo then
          (getResticRepoUrl cfg.storage).bind fun repoUrl =>
            .ok (base ++ [{name := "Remote repository", status := HealthStatus.ok,
                           message := repoUrl}])
        else
          .ok (base ++ [{name := "Remote repository", status := HealthStatus.error,
                         message := "Cannot reach repository. Check credentials and network."}])
      else
        .ok (base ++ [{name := "Remote repository", status := .warn,
                       message := "Skipped (no passphrase provided, use --passphrase or AGENTSTASH_PASSPHRASE)"}])

/-! ## Specification helpers and concrete sample data -/

/-- Specification helper (C6): the directory paths a backup run is
expected to hand to the engine — for each configured agent in order,
the effective directories that exist, resolved against home; an agent
missing from the registry contributes nothing. -/
def expectedEnginePaths (env : BackupEnv) (acs : List AgentConfig) : List String :=
  (acs.map fun ac =>
    match getAgent env.registry ac.id with
    | none => []
    | some d =>
      ((effectiveDirs d ac).map (fun dd => expandHome env.home dd.path)).filter
        env.pathExists).flatten

/-- Engine-invocation paths of an event trace, in order. -/
def enginePaths : List Event → List String
  | [] => []
  | .engineBackup p _ _ _ _ :: rest => p :: enginePaths rest
  | .warn _ :: rest => enginePaths rest
  | .error _ :: rest => enginePaths rest
  | .info _ :: rest => enginePaths rest
  | .kv _ _ :: rest => enginePaths rest
  | .engineForget _ _ :: rest => enginePaths rest
  | .engineList _ :: rest => enginePaths rest

/-- Predicate: an agent definition's liveness probe, when present, does
not reject. -/
def runningProbeSafe (d : AgentDefinition) : Prop :=
  ∀ e, d.isRunning ≠ some (ProbeResult.exn e)

/-- Sample category rule (the secrets category of the claude-code
catalog entry). -/
def sampleRule : CategoryRule :=
  {description := "Credentials and auth tokens",
   backupIncludes := [".credentials.json"],
   restoreIncludes := ["**/.credentials.json"]}

/-- Sample agent definition for concrete witnesses, patterned after the
claude-code catalog entry (one data directory, one category). -/
def sampleAgent : AgentDefinition :=
  {id := "claude-code", displayName := "Claude Code",
   description := "CLI coding agent",
   dataDirs := [{path := "~/.claude",
                 description := "Claude Code data (sessions, settings, skills)",
                 critical := true}],
   categories := [("secrets", sampleRule)],
   excludes := ["projects/**/node_modules/**"],
   detectInstalled := .ok true, isRunning := none}

/-- Sample agent definition whose data directory is absent in the
witness environments, patterned after the gemini catalog entry. -/
def missingDirAgent : AgentDefinition :=
  {id := "gemini", displayName := "Gemini CLI",
   description := "Google Gemini CLI",
   dataDirs := [{path := "~/.gemini", description := "Gemini CLI data directory",
                 critical := true}],
   categories := [], excludes := ["node_modules/**"],
   detectInstalled := .ok true, isRunning := none}

/-- Agent definition whose installation probe throws, exercising the
probe-error paths. -/
def throwingAgent : AgentDefinition :=
  {id := "bad", displayName := "Bad", description := "throwing probe",
   dataDirs := [], categories := [], excludes := [],
   detectInstalled := .exn "probe failure", isRunning := none}

/-- Sample storage configuration. -/
def sampleStorage : StorageConfig :=
  {provider := .s3, bucket := "bkt", accountId := none, accessKeyId := "k",
   secretAccessKey := "s", endpoint := none, region := none, jurisdiction := none}

/-- Sample retention configuration (the shipped defaults). -/
def sampleRetention : RetentionConfig :=
  {keepLast := 7, keepDaily := 30, keepWeekly := 12, keepMonthly := 6}

/-- Sample daemon configuration (the shipped defaults). -/
def sampleDaemon : DaemonConfig :=
  {enabled := false, intervalMinutes := 60, quietMinutes := 5}

/-- Configuration whose only agent has a throwing installation probe. -/
def throwingConfig : AgentstashConfig :=
  {agents := [{id := "bad", dataDir := none, enabled := true, excludes := none}],
   storage := sampleStorage, retention := sampleRetention, daemon := sampleDaemon,
   exclude := [], resticVersion := "0.17.3"}

/-- Health environment whose registry holds the throwing-probe agent. -/
def throwingEnv : HealthEnv :=
  {resticInstalled := true, resticVersion := "0.17.3",
   resticBinaryPath := "/bin/restic", configPath := "/cfg.json",
   config := some throwingConfig, registry := [throwingAgent],
   pathExists := fun _ => true, checkRepo := true, home := "/home/u"}

/-- Sample engine summary. -/
def sampleSummary : ResticBackupSummary :=
  {files_new := 1, files_changed := 0, files_unmodified := 2, data_added := 10,
   total_bytes_processed := 20, total_duration := 1, snapshot_id := "abcdef12"}

/-- Sample configured agent referencing the claude-code definition. -/
def sampleAC : AgentConfig :=
  {id := "claude-code", dataDir := none, enabled := true,
   excludes := some ["extra/**"]}

/-- Sample configured agent referencing the gemini definition. -/
def missingAC : AgentConfig :=
  {id := "gemini", dataDir := none, enabled := true, excludes := none}

/-- Sample backup options: no flags set. -/
def sampleOpts : BackupOptions :=
  {passphrase := none, agent := none, only := none, dryRun := false,
   forget := none}

/-- Backup environment where only the claude-code data directory
exists and the engine succeeds. -/
def envAB : BackupEnv :=
  {registry := [sampleAgent, missingDirAgent],
   pathExists := fun p => p == "/home/u/.claude", home := "/home/u",
   engine := fun _ _ _ _ _ => .ok sampleSummary}

/-- Variant of `envAB` whose engine fails on every invocation. -/
def envABfail : BackupEnv :=
  {registry := [sampleAgent, missingDirAgent],
   pathExists := fun p => p == "/home/u/.claude", home := "/home/u",
   engine := fun _ _ _ _ _ => .error "restic exited with code 1"}

/-- Forget environment observing 10 snapshots before the prune and 6
after, with a succeeding engine `forget`. -/
def forgetEnv10 : ForgetEnv :=
  {listBefore := fun _ =>
     List.replicate 10 {id := "s", short_id := "s", time := 0, tags := []},
   forgetResult := fun _ _ => .ok (),
   listAfter := fun _ =>
     List.replicate 6 {id := "s", short_id := "s", time := 0, tags := []}}

/-! ## Theorems -/

/-- C1: passphrase resolution tries, in strict order, the explicit flag
value if non-empty, then the `AGENTSTASH_PASSPHRASE` environment value
if non-empty, then the keychain lookup; for every combination of
populated sources the highest-priority non-empty one is returned, and
when all three yield nothing the command terminates with exit code 1
(`process.exit`, not a catchable exception). -/
theorem resolvePassphrase_priority (e v k : Option String) :
    (truthy e = true → resolvePassphrase e v (.ok k) = .ok (e.getD "")) ∧
    (truthy e = false → truthy v = true → resolvePassphrase e v (.ok k) = .ok (v.getD "")) ∧
    (truthy e = false → truthy v = false → truthy k = true →
      resolvePassphrase e v (.ok k) = .ok (k.getD "")) ∧
    (truthy e = false → truthy v = false → truthy k = false →
      resolvePassphrase e v (.ok k) = .exited 1) := by
  refine ⟨?_, ?_, ?_, ?_⟩ <;> intros <;> simp_all [resolvePassphrase, JsOutcome.bind]

/-- Witness for C1 at concrete populated/empty source combinations. -/
theorem resolvePassphrase_priority_witness :
    resolvePassphrase (some "flag") (some "env") (.ok (some "chain")) = .ok "flag"
    ∧ resolvePassphrase none (some "env") (.ok (some "chain")) = .ok "env"
    ∧ resolvePassphrase none (some "") (.ok (some "chain")) = .ok "chain"
    ∧ resolvePassphrase none none (.ok none) = .exited 1 :=
  ⟨(resolvePassphrase_priority (some "flag") (some "env") (some "chain")).1 (by decide),
   (resolvePassphrase_priority none (some "env") (some "chain")).2.1 (by decide) (by decide),
   (resolvePassphrase_priority none (some "") (some "chain")).2.2.1 (by decide) (by decide)
     (by decide),
   (resolvePassphrase_priority none none none).2.2.2 (by decide) (by decide) (by decide)⟩

/-- The selection loop of `findSnapshotByTime` returns the first
snapshot, in list order, attaining the minimal absolute distance to the
target: the result splits the input into a prefix of strictly worse
candidates, the result, and a suffix of no-better candidates. -/
theorem findClosestGo_first_min (t : Int) :
    ∀ (rest : List ResticSnapshot) (best : ResticSnapshot),
    ∃ l₁ l₂, best :: rest = l₁ ++ findClosestGo t rest best (snapDiff t best) :: l₂
      ∧ (∀ s' ∈ l₁, snapDiff t (findClosestGo t rest best (snapDiff t best)) < snapDiff t s')
      ∧ (∀ s' ∈ l₂, snapDiff t (findClosestGo t rest best (snapDiff t best)) ≤ snapDiff t s') := by
  intro rest
  induction rest with
  | nil =>
    intro best
    exact ⟨[], [], by simp [findClosestGo], by simp, by simp [findClosestGo]⟩
  | cons snap rest ih =>
    intro best
    by_cases h : snapDiff t snap < snapDiff t best
    · obtain ⟨l₁, l₂, hdec, h₁, h₂⟩ := ih snap
      have hgo : findClosestGo t (snap :: rest) best (snapDiff t best)
          = findClosestGo t rest snap (snapDiff t snap) := by
        simp [findClosestGo, h]
      rw [hgo]
      set r := findClosestGo t rest snap (snapDiff t snap) with hr
      have hrsnap : snapDiff t r ≤ snapDiff t snap := by
        cases l₁ with
        | nil =>
          simp only [List.nil_append, List.cons.injEq] at hdec
          rw [hdec.1]
        | cons x l₁' =>
          have hx : snap = x := by simpa using congrArg List.head? hdec
          have hlt : snapDiff t r < snapDiff t x := h₁ x (by simp)
          rw [← hx] at hlt
          omega
      refine ⟨best :: l₁, l₂, ?_, ?_, h₂⟩
      · simpa using hdec
      · intro s' hs'
        rcases List.mem_cons.mp hs' with hb | hmem
        · subst hb; omega
        · exact h₁ s' hmem
    · obtain ⟨l₁, l₂, hdec, h₁, h₂⟩ := ih best
      have hgo : findClosestGo t (snap :: rest) best (snapDiff t best)
          = findClosestGo t rest best (snapDiff t best) := by
        simp [findClosestGo, h]
      rw [hgo]
      set r := findClosestGo t rest best (snapDiff t best) with hr
      have hle : snapDiff t best ≤ snapDiff t snap := by omega
      cases l₁ with
      | nil =>
        simp only [List.nil_append, List.cons.injEq] at hdec
        refine ⟨[], snap :: l₂, ?_, by simp, ?_⟩
        · simp [← hdec.1, hdec.2]
        · intro s' hs'
          rcases List.mem_cons.mp hs' with hb | hmem
          · subst hb; rw [← hdec.1]; exact hle
          · exact h₂ s' hmem
      | cons x l₁' =>
        have hx : best = x := by simpa using congrArg List.head? hdec
        have htail : rest = l₁' ++ r :: l₂ := by
          simpa using congrArg List.tail hdec
        have hrb : snapDiff t r < snapDiff t best := by
          rw [hx]; exact h₁ x (by simp)
        refine ⟨best :: snap :: l₁', l₂, ?_, ?_, h₂⟩
        · simp [htail]
        · intro s' hs'
          rcases List.mem_cons.mp hs' with hb | hmem
          · subst hb; exact hrb
          · rcases List.mem_cons.mp hmem with hb2 | hmem2
            · subst hb2; omega
            · exact h₁ s' (List.mem_cons_of_mem x hmem2)

/-- On a non-empty candidate list, the closest-snapshot search returns
the first-in-order minimizer of `|snapshotTime - targetTime|`. -/
theorem findClosest_first_min (t : Int) (l : List ResticSnapshot) (s : ResticSnapshot)
    (h : findClosest l t = some s) :
    ∃ l₁ l₂, l = l₁ ++ s :: l₂ ∧ (∀ s' ∈ l₁, snapDiff t s < snapDiff t s')
      ∧ (∀ s' ∈ l₂, snapDiff t s ≤ snapDiff t s') := by
  cases l with
  | nil => simp [findClosest] at h
  | cons hd rest =>
    simp only [findClosest, Option.some.injEq] at h
    subst h
    exact findClosestGo_first_min t rest hd

/-- C2 counterexample: with the empty candidate list and an expression
neither matching the relative grammar nor parseable as an absolute date
("not-a-date" — JS `new Date` yields `NaN` on it, modelled by the
date-parse parameter returning `none`), `findSnapshotByTime` terminates
the command with exit code 1 instead of returning the no-match
signal. -/
theorem findSnapshotByTime_empty_unparseable_exits :
    findSnapshotByTime (fun _ => none) 0 [] "not-a-date" = .exited 1
    ∧ findSnapshotByTime (fun _ => none) 0 [] "not-a-date"
        ≠ .ok (none : Option ResticSnapshot) := by
  exact ⟨by decide, by decide⟩

/-- C2 (amended): for every time expression that resolves to a target
instant (relative grammar, or an absolute date the date parser
accepts), snapshot selection returns the snapshot minimizing
`|snapshotTime - targetInstant|` over the candidate list, ties resolved
in favour of the first-encountered candidate, and the empty candidate
list yields the explicit no-match signal (`null`); an expression that
resolves to no instant is instead a fatal exit, even on the empty
list. -/
theorem findSnapshotByTime_nearest (parse : String → Option Int) (now : Int)
    (l : List ResticSnapshot) (e : String) (t : Int)
    (ht : (∃ o, parseRelativeMs e = some o ∧ t = now - o)
        ∨ (parseRelativeMs e = none ∧ parse e = some t)) :
    findSnapshotByTime parse now l e = .ok (findClosest l t)
    ∧ (l = [] → findClosest l t = none)
    ∧ ∀ s, findClosest l t = some s →
        ∃ l₁ l₂, l = l₁ ++ s :: l₂
          ∧ (∀ s' ∈ l₁, snapDiff t s < snapDiff t s')
          ∧ (∀ s' ∈ l₂, snapDiff t s ≤ snapDiff t s') := by
  refine ⟨?_, ?_, fun s hs => findClosest_first_min t l s hs⟩
  · rcases ht with ⟨o, ho, hto⟩ | ⟨hrel, habs⟩
    · subst hto; simp [findSnapshotByTime, ho]
    · simp [findSnapshotByTime, hrel, habs]
  · intro hl; subst hl; rfl

/-- Witness for C2 (amended): the expression "1 hour ago" at `now = 3600000` targets
instant 0; on a two-candidate list the closer snapshot is selected, and
on the empty list the result is the no-match signal. -/
theorem findSnapshotByTime_nearest_witness :
    findSnapshotByTime (fun _ => none) 3600000
        [⟨"a", "a", 30, []⟩, ⟨"b", "b", 500, []⟩] "1 hour ago"
      = .ok (some ⟨"a", "a", 30, []⟩)
    ∧ findSnapshotByTime (fun _ => none) 3600000 [] "1 hour ago" = .ok none := by
  constructor
  · exact (findSnapshotByTime_nearest (fun _ => none) 3600000
      [⟨"a", "a", 30, []⟩, ⟨"b", "b", 500, []⟩] "1 hour ago" 0
      (Or.inl ⟨3600000, by decide, by decide⟩)).1
  · exact (findSnapshotByTime_nearest (fun _ => none) 3600000 [] "1 hour ago" 0
      (Or.inl ⟨3600000, by decide, by decide⟩)).1

/-- The head of an append with a non-empty left part. -/
theorem head?_append_nonempty {l₁ l₂ : List Char} (h : l₁ ≠ []) :
    (l₁ ++ l₂).head? = l₁.head? := by cases l₁ <;> simp_all

/-- Lemma: `takeWhile`/`dropWhile` split an append exactly at the boundary when
the left part satisfies the predicate throughout and the right part
starts with a failing character. -/
theorem takeWhile_append_eq {p : Char → Bool} (l₁ l₂ : List Char)
    (h₁ : ∀ c ∈ l₁, p c = true) (h₂ : ∀ c, l₂.head? = some c → p c = false) :
    (l₁ ++ l₂).takeWhile p = l₁ ∧ (l₁ ++ l₂).dropWhile p = l₂ := by
  induction l₁ with
  | nil =>
    simp only [List.nil_append]
    cases l₂ with
    | nil => simp
    | cons c cs =>
      have := h₂ c rfl
      simp [List.takeWhile, List.dropWhile, this]
  | cons a l₁ ih =>
    have ha := h₁ a (by simp)
    have hrec := ih (fun c hc => h₁ c (List.mem_cons_of_mem a hc))
    simp [List.takeWhile, List.dropWhile, ha, hrec.1, hrec.2]

/-- A whitespace character is not a digit. -/
theorem isWhitespace_not_isDigit (c : Char) (h : c.isWhitespace = true) :
    c.isDigit = false := by
  simp [Char.isWhitespace] at h
  obtain ((h | h) | h) | h := h <;> subst h <;> decide

/-- A whitespace character is not the letter s. -/
theorem isWhitespace_ne_s (c : Char) (h : c.isWhitespace = true) : c ≠ 's' := by
  intro hc; subst hc; simp at h

/-- The unit table, with its keys evaluated to character lists. -/
theorem multipliers_eval : multipliers =
    [(['m','i','n','u','t','e'], 60000), (['h','o','u','r'], 3600000),
     (['d','a','y'], 86400000), (['w','e','e','k'], 604800000),
     (['m','o','n','t','h'], 2592000000)] := by decide

/-- Core soundness of the relative-time grammar: on an input whose
lowercasing decomposes as digits, whitespace, a unit word of the table,
an optional plural s, whitespace, and "ago", the parser returns
`amount * unitMs`. The table-lookup behaviour is abstracted by `hfind`
(discharged per concrete unit in `parseRelativeMs_sound`). -/
theorem parseRelativeMs_sound_aux (s : String) (ds w₁ u su w₂ : List Char) (mult : Int)
    (hs : s.toList.map Char.toLower
        = ds ++ (w₁ ++ (u ++ (su ++ (w₂ ++ ['a', 'g', 'o'])))))
    (hds : ds ≠ []) (hdsd : ∀ c ∈ ds, c.isDigit = true)
    (hw₁ : w₁ ≠ []) (hw₁w : ∀ c ∈ w₁, c.isWhitespace = true)
    (hfind : ∀ tail, multipliers.find? (fun p => p.1.isPrefixOf (u ++ tail)) = some (u, mult))
    (huh : ∀ c, u.head? = some c → c.isWhitespace = false) (hune : u ≠ [])
    (hsu : su = [] ∨ su = ['s'])
    (hw₂ : w₂ ≠ []) (hw₂w : ∀ c ∈ w₂, c.isWhitespace = true) :
    parseRelativeMs s = some ((digitsToNat ds : Int) * mult) := by
  have hdig := takeWhile_append_eq (p := Char.isDigit)
    ds (w₁ ++ (u ++ (su ++ (w₂ ++ ['a', 'g', 'o'])))) hdsd
    (by
      intro c hc
      rw [head?_append_nonempty hw₁] at hc
      exact isWhitespace_not_isDigit c (hw₁w c (List.mem_of_mem_head? hc)))
  have hws := takeWhile_append_eq (p := Char.isWhitespace)
    w₁ (u ++ (su ++ (w₂ ++ ['a', 'g', 'o']))) hw₁w
    (by
      intro c hc
      rw [head?_append_nonempty hune] at hc
      exact huh c hc)
  have hdrop : (u ++ (su ++ (w₂ ++ ['a', 'g', 'o']))).drop u.length
      = su ++ (w₂ ++ ['a', 'g', 'o']) := List.drop_left u _
  have hw2go := takeWhile_append_eq (p := Char.isWhitespace)
    w₂ ['a', 'g', 'o'] hw₂w (by intro c hc; simp at hc; subst hc; decide)
  -- unfold the parser along the decomposition
  rw [parseRelativeMs]
  simp only [hs, hdig.1, hdig.2]
  rw [if_neg (by simp [hds])]
  simp only [hws.1, hws.2]
  rw [if_neg (by simp [hw₁])]
  simp only [hfind, hdrop]
  rcases hsu with h | h <;> subst h
  · -- no plural "s": the next character is whitespace, not 's'
    have hhead : ¬((w₂ ++ ['a', 'g', 'o']).head? = some 's') := by
      rw [head?_append_nonempty hw₂]
      intro hc
      exact isWhitespace_ne_s _ (hw₂w _ (List.mem_of_mem_head? hc)) rfl
    rw [List.nil_append, if_neg hhead]
    simp only [hw2go.1, hw2go.2]
    rw [if_neg (by simp [hw₂])]
    simp
  · have hh : ('s' :: ([] ++ (w₂ ++ ['a', 'g', 'o']))).head? = some 's' := rfl
    rw [List.cons_append, if_pos hh]
    simp only [List.tail_cons, List.nil_append, hw2go.1, hw2go.2]
    rw [if_neg (by simp [hw₂])]
    simp

/-- Soundness of the relative-time grammar for every unit of the
table. -/
theorem parseRelativeMs_sound (s : String) (ds w₁ u su w₂ : List Char) (mult : Int)
    (hs : s.toList.map Char.toLower
        = ds ++ (w₁ ++ (u ++ (su ++ (w₂ ++ ['a', 'g', 'o'])))))
    (hds : ds ≠ []) (hdsd : ∀ c ∈ ds, c.isDigit = true)
    (hw₁ : w₁ ≠ []) (hw₁w : ∀ c ∈ w₁, c.isWhitespace = true)
    (hu : (u, mult) ∈ multipliers)
    (hsu : su = [] ∨ su = ['s'])
    (hw₂ : w₂ ≠ []) (hw₂w : ∀ c ∈ w₂, c.isWhitespace = true) :
    parseRelativeMs s = some ((digitsToNat ds : Int) * mult) := by
  rw [multipliers_eval] at hu
  simp only [List.mem_cons, List.not_mem_nil, or_false, Prod.mk.injEq] at hu
  rcases hu with ⟨hu1, hu2⟩ | ⟨hu1, hu2⟩ | ⟨hu1, hu2⟩ | ⟨hu1, hu2⟩ | ⟨hu1, hu2⟩ <;>
      subst hu1 <;> subst hu2 <;>
      refine parseRelativeMs_sound_aux s ds w₁ _ su w₂ _ hs hds hdsd hw₁ hw₁w
        (fun tail => by simp [multipliers_eval, List.find?, List.isPrefixOf]) ?_ (by decide) hsu hw₂ hw₂w <;>
    · intro c hc
      simp only [List.head?_cons, Option.some.injEq] at hc
      subst hc
      decide

/-- C3: a time expression matching `<integer> <unit>(s)? ago`
(case-insensitive, units minute/hour/day/week/month with the fixed
millisecond durations 60000 / 3600000 / 86400000 / 604800000 /
2592000000) resolves to `now - integer * unitMs`; any other string is
parsed as an absolute date, and an unparseable absolute string is a
fatal `process.exit(1)` aborting the command. -/
theorem relative_time_resolution (parse : String → Option Int) (now : Int)
    (l : List ResticSnapshot) (s : String) (ds w₁ u su w₂ : List Char) (mult : Int)
    (hs : s.toList.map Char.toLower
        = ds ++ (w₁ ++ (u ++ (su ++ (w₂ ++ ['a', 'g', 'o'])))))
    (hds : ds ≠ []) (hdsd : ∀ c ∈ ds, c.isDigit = true)
    (hw₁ : w₁ ≠ []) (hw₁w : ∀ c ∈ w₁, c.isWhitespace = true)
    (hu : (u, mult) ∈ multipliers)
    (hsu : su = [] ∨ su = ['s'])
    (hw₂ : w₂ ≠ []) (hw₂w : ∀ c ∈ w₂, c.isWhitespace = true) :
    findSnapshotByTime parse now l s
      = .ok (findClosest l (now - (digitsToNat ds : Int) * mult))
    ∧ (∀ e, parseRelativeMs e = none → parse e = none →
        findSnapshotByTime parse now l e = .exited 1)
    ∧ (∀ e t, parseRelativeMs e = none → parse e = some t →
        findSnapshotByTime parse now l e = .ok (findClosest l t)) := by
  refine ⟨?_, ?_, ?_⟩
  · have hp := parseRelativeMs_sound s ds w₁ u su w₂ mult hs hds hdsd hw₁ hw₁w hu hsu hw₂ hw₂w
    simp [findSnapshotByTime, hp]
  · intro e h1 h2; simp [findSnapshotByTime, h1, h2]
  · intro e t h1 h2; simp [findSnapshotByTime, h1, h2]

/-- Witness for C3: the expression "3 days ago" targets `now - 259200000`,
"1 MONTH ago" targets `now - 2592000000` (fixed 30-day unit,
case-insensitive), and an unparseable string exits fatally. -/
theorem relative_time_resolution_witness :
    findSnapshotByTime (fun _ => none) 259200000 [] "3 days ago" = .ok none
    ∧ findSnapshotByTime (fun _ => none) 2592000000 [] "1 MONTH ago" = .ok none
    ∧ findSnapshotByTime (fun _ => none) 0 [] "garbage" = .exited 1 := by
  refine ⟨?_, ?_, ?_⟩
  · exact (relative_time_resolution (fun _ => none) 259200000 [] "3 days ago"
      ['3'] [' '] ['d', 'a', 'y'] ['s'] [' '] 86400000 (by decide) (by decide) (by decide)
      (by decide) (by decide) (by decide) (Or.inr rfl) (by decide) (by decide)).1
  · exact (relative_time_resolution (fun _ => none) 2592000000 [] "1 MONTH ago"
      ['1'] [' '] ['m', 'o', 'n', 't', 'h'] [] [' '] 2592000000 (by decide) (by decide)
      (by decide) (by decide) (by decide) (by decide) (Or.inl rfl) (by decide) (by decide)).1
  · exact (relative_time_resolution (fun _ => none) 0 [] "3 days ago"
      ['3'] [' '] ['d', 'a', 'y'] ['s'] [' '] 86400000 (by decide) (by decide) (by decide)
      (by decide) (by decide) (by decide) (Or.inr rfl) (by decide) (by decide)).2.1
      "garbage" (by decide) rfl

/-- C5 counterexample: the category name "toString" is not present in
the sample agent's category mapping (whose only key is "secrets"), yet
the resolver does not fail fatally — the JS read `categories["toString"]`
finds the inherited `Object.prototype.toString` (truthy), the falsy
guard passes, and `categoryRule.backupIncludes` is `undefined`, so the
command proceeds with no filter instead of exiting. -/
theorem resolveIncludes_spec_cex :
    (sampleAgent.categories.map (fun c => c.1)) = ["secrets"]
    ∧ lookupCategory sampleAgent.categories "toString" = .inherited
    ∧ getCategoryIncludes [sampleAgent] "claude-code" (some "toString")
        = ([], .ok none)
    ∧ (getCategoryIncludes [sampleAgent] "claude-code" (some "toString")).2
        ≠ .exited 1 :=
  ⟨by decide, by decide, by decide, by decide⟩

/-- C5 (amended): for every known agent identifier, resolving category
includes with no category name returns the no-filter signal; with a
category name that is neither a key of the agent's category mapping nor
a property name inherited from `Object.prototype`, both the backup- and
restore-direction resolvers exit fatally, the backup-direction one
after reporting the list of valid category names; with a
prototype-inherited name (e.g. "toString", "constructor") the lookup
hits the prototype chain and both resolvers silently return the
no-filter signal instead of failing; with a valid category name the
backup direction returns `backupIncludes` and the restore direction
`restoreIncludes`. -/
theorem resolveIncludes_spec (registry : List AgentDefinition) (id : String)
    (agentDef : AgentDefinition) (hreg : getAgent registry id = some agentDef) :
    (getCategoryIncludes registry id none = ([], .ok none)
      ∧ getCategoryIncludesRestore registry id none = ([], .ok none))
    ∧ (∀ c, truthy (some c) = true →
        lookupCategory agentDef.categories c = .undefinedVal →
        (getCategoryIncludes registry id (some c)).2 = .exited 1
        ∧ Event.info ("Valid categories: "
            ++ String.intercalate ", " (agentDef.categories.map (fun x => x.1)))
            ∈ (getCategoryIncludes registry id (some c)).1
        ∧ (getCategoryIncludesRestore registry id (some c)).2 = .exited 1)
    ∧ (∀ c, truthy (some c) = true →
        lookupCategory agentDef.categories c = .inherited →
        getCategoryIncludes registry id (some c) = ([], .ok none)
        ∧ getCategoryIncludesRestore registry id (some c) = ([], .ok none))
    ∧ (∀ c rule, truthy (some c) = true →
        lookupCategory agentDef.categories c = .rule rule →
        getCategoryIncludes registry id (some c) = ([], .ok (some rule.backupIncludes))
        ∧ getCategoryIncludesRestore registry id (some c)
            = ([], .ok (some rule.restoreIncludes))) := by
  refine ⟨⟨?_, ?_⟩, ?_, ?_, ?_⟩
  · simp [getCategoryIncludes, truthy]
  · simp [getCategoryIncludesRestore, truthy]
  · intro c hc hund
    refine ⟨?_, ?_, ?_⟩ <;>
      simp [getCategoryIncludes, getCategoryIncludesRestore, hc, hreg, hund]
  · intro c hc hinh
    constructor <;>
      simp [getCategoryIncludes, getCategoryIncludesRestore, hc, hreg, hinh]
  · intro c rule hc hrule
    constructor <;>
      simp [getCategoryIncludes, getCategoryIncludesRestore, hc, hreg, hrule]

/-- Witness for C5 (amended) on a one-agent registry: no filter, an
unknown non-prototype category (fatal, valid names reported), the
inherited name "constructor" (silent no-filter), and the secrets
category in both directions. -/
theorem resolveIncludes_spec_witness :
    getCategoryIncludes [sampleAgent] "claude-code" none = ([], .ok none)
    ∧ (getCategoryIncludes [sampleAgent] "claude-code" (some "bogus-category")).2 = .exited 1
    ∧ Event.info "Valid categories: secrets"
        ∈ (getCategoryIncludes [sampleAgent] "claude-code" (some "bogus-category")).1
    ∧ getCategoryIncludes [sampleAgent] "claude-code" (some "constructor")
        = ([], .ok none)
    ∧ getCategoryIncludes [sampleAgent] "claude-code" (some "secrets")
        = ([], .ok (some [".credentials.json"]))
    ∧ getCategoryIncludesRestore [sampleAgent] "claude-code" (some "secrets")
        = ([], .ok (some ["**/.credentials.json"])) := by
  have h := resolveIncludes_spec [sampleAgent] "claude-code" sampleAgent (by decide)
  refine ⟨h.1.1, ?_, ?_, ?_, ?_, ?_⟩
  · exact (h.2.1 "bogus-category" (by decide) (by decide)).1
  · exact (h.2.1 "bogus-category" (by decide) (by decide)).2.1
  · exact (h.2.2.1 "constructor" (by decide) (by decide)).1
  · exact (h.2.2.2 "secrets" sampleRule (by decide) (by decide)).1
  · exact (h.2.2.2 "secrets" sampleRule (by decide) (by decide)).2

/-- C10: agent selection consults the enabled flag only when no
explicit agent is named: with no `--agent` option exactly the enabled
configured agents are selected (fatal exit when that set is empty);
with `--agent x` the configured agent with id `x` is selected
regardless of its enabled flag, and the command exits fatally exactly
when `x` is not configured. -/
theorem agent_selection (agents : List AgentConfig) (x : String) (ac : AgentConfig)
    (hx : x ≠ "") :
    ((agents.filter (fun a => a.enabled)) ≠ [] →
       determineAgentsToBackup agents none
         = ([], .ok (agents.filter (fun a => a.enabled))))
    ∧ ((agents.filter (fun a => a.enabled)) = [] →
       (determineAgentsToBackup agents none).2 = .exited 1)
    ∧ (agents.find? (fun a => a.id == x) = some ac →
       determineAgentsToBackup agents (some x) = ([], .ok [ac]))
    ∧ (agents.find? (fun a => a.id == x) = none →
       (determineAgentsToBackup agents (some x)).2 = .exited 1) := by
  refine ⟨?_, ?_, ?_, ?_⟩
  · intro h
    simp [determineAgentsToBackup, truthy, List.isEmpty_iff, h]
  · intro h
    simp [determineAgentsToBackup, truthy, List.isEmpty_iff, h]
  · intro h
    simp [determineAgentsToBackup, truthy, hx, h, List.isEmpty_iff]
  · intro h
    simp [determineAgentsToBackup, truthy, hx, h]

/-- Witness for C10: a disabled agent is skipped by the default
selection but selected by `--agent`; an all-disabled configuration and
an unknown id exit fatally. -/
theorem agent_selection_witness :
    determineAgentsToBackup
        [{id := "a", dataDir := none, enabled := false, excludes := none},
         {id := "b", dataDir := none, enabled := true, excludes := none}] none
      = ([], .ok [{id := "b", dataDir := none, enabled := true, excludes := none}])
    ∧ determineAgentsToBackup
        [{id := "a", dataDir := none, enabled := false, excludes := none},
         {id := "b", dataDir := none, enabled := true, excludes := none}] (some "a")
      = ([], .ok [{id := "a", dataDir := none, enabled := false, excludes := none}])
    ∧ (determineAgentsToBackup
        [{id := "a", dataDir := none, enabled := false, excludes := none}] none).2
      = .exited 1
    ∧ (determineAgentsToBackup
        [{id := "a", dataDir := none, enabled := false, excludes := none}] (some "zz")).2
      = .exited 1 := by
  refine ⟨?_, ?_, ?_, ?_⟩
  · exact (agent_selection
      [{id := "a", dataDir := none, enabled := false, excludes := none},
       {id := "b", dataDir := none, enabled := true, excludes := none}] "x"
      {id := "a", dataDir := none, enabled := false, excludes := none}
      (by decide)).1 (by decide)
  · exact (agent_selection
      [{id := "a", dataDir := none, enabled := false, excludes := none},
       {id := "b", dataDir := none, enabled := true, excludes := none}] "a"
      {id := "a", dataDir := none, enabled := false, excludes := none}
      (by decide)).2.2.1 (by decide)
  · exact (agent_selection
      [{id := "a", dataDir := none, enabled := false, excludes := none}] "x"
      {id := "a", dataDir := none, enabled := false, excludes := none}
      (by decide)).2.1 (by decide)
  · exact (agent_selection
      [{id := "a", dataDir := none, enabled := false, excludes := none}] "zz"
      {id := "a", dataDir := none, enabled := false, excludes := none}
      (by decide)).2.2.2 (by decide)

/-- C8: applying retention counts the snapshots matching the tag
filter, delegates the prune to the engine with the four retention
counts and the same tag filter, counts again, and reports before,
after, and `removed = before - after`. -/
theorem applyRetention_reporting (env : ForgetEnv) (retention : RetentionConfig)
    (optAgent : Option String) (tags : Option (List String))
    (htags : tags = if truthy optAgent then some [optAgent.getD ""] else none)
    (hok : env.forgetResult tags retention = .ok ()) :
    forgetCommand env retention optAgent
      = ([.engineList tags, .engineForget tags retention, .engineList tags,
          .kv "Before" (toString (env.listBefore tags).length ++ " snapshots"),
          .kv "After" (toString (env.listAfter tags).length ++ " snapshots"),
          .kv "Removed"
            (toString (((env.listBefore tags).length : Int)
              - (env.listAfter tags).length) ++ " snapshots")],
         .ok ()) := by
  subst htags
  simp [forgetCommand, hok]

/-- Witness for C8: 10 snapshots before the prune and 6 after are
reported as removed = 4. -/
theorem applyRetention_reporting_witness :
    forgetCommand forgetEnv10 sampleRetention none
      = ([.engineList none, .engineForget none sampleRetention, .engineList none,
          .kv "Before" "10 snapshots", .kv "After" "6 snapshots",
          .kv "Removed" "4 snapshots"], .ok ()) := by
  have h := applyRetention_reporting forgetEnv10 sampleRetention none none rfl rfl
  rw [h]
  decide

/-- C4 counterexample: a throwing installation probe is not treated as
"not installed" — `getInstalledAgents` over a registry holding it
raises the probe's exception instead of returning a list, and a
health-check run over a configuration naming that agent raises instead
of downgrading to a warning. -/
theorem probe_error_propagates_cex :
    getInstalledAgents [throwingAgent] = .thrown "probe failure"
    ∧ getInstalledAgents [throwingAgent] ≠ .ok []
    ∧ runHealthChecks throwingEnv none = .thrown "probe failure" := by
  refine ⟨by decide, by decide, by decide⟩

/-- C4 (amended): capability-probe errors propagate to callers: when
every installation probe returns normally `getInstalledAgents` returns
the installed subset without raising, but a probe that throws makes
`getInstalledAgents` raise that exception (the agent is not silently
excluded), and an installation-probe exception during the per-agent
health-check loop propagates out of `runHealthChecks`, aborting the
remaining checks. -/
theorem probe_error_propagation :
    (∀ registry : List AgentDefinition,
      (∀ x ∈ registry, ∀ s, x.detectInstalled ≠ ProbeResult.exn s) →
      getInstalledAgents registry
        = .ok (registry.filter (fun x => x.detectInstalled == ProbeResult.ok true)))
    ∧ (∀ (l₁ l₂ : List AgentDefinition) (a : AgentDefinition) (e : String),
        (∀ x ∈ l₁, ∀ s, x.detectInstalled ≠ ProbeResult.exn s) →
        a.detectInstalled = .exn e →
        getInstalledAgents (l₁ ++ a :: l₂) = .thrown e)
    ∧ (∀ (env : HealthEnv) (ac : AgentConfig) (rest : List AgentConfig)
        (d : AgentDefinition) (e : String) (p : Option String)
        (cfg : AgentstashConfig),
        env.config = some cfg → cfg.agents = ac :: rest →
        getAgent env.registry ac.id = some d → d.detectInstalled = .exn e →
        runHealthChecks env p = .thrown e) := by
  refine ⟨?_, ?_, ?_⟩
  · intro registry h
    induction registry with
    | nil => simp [getInstalledAgents]
    | cons x rest ih =>
      have hx := h x (by simp)
      have hrec := ih (fun y hy s => h y (List.mem_cons_of_mem x hy) s)
      match hd : x.detectInstalled with
      | .exn s => exact absurd hd (hx s)
      | .ok b =>
        cases b
        · simp only [getInstalledAgents, hd, hrec, JsOutcome.bind, List.filter]
          rfl
        · simp only [getInstalledAgents, hd, hrec, JsOutcome.bind, List.filter]
          rfl
  · intro l₁ l₂ a e h ha
    induction l₁ with
    | nil => simp [getInstalledAgents, ha]
    | cons x rest ih =>
      have hx := h x (by simp)
      have hrec := ih (fun y hy s => h y (List.mem_cons_of_mem x hy) s)
      match hd : x.detectInstalled with
      | .exn s => exact absurd hd (hx s)
      | .ok b => simp [getInstalledAgents, hd, hrec, JsOutcome.bind]
  · intro env ac rest d e p cfg hcfg hagents hlook hprobe
    have hchecks : agentChecks env (ac :: rest) = .thrown e := by
      simp [agentChecks, hlook, hprobe]
    simp [runHealthChecks, hcfg, hagents, hchecks, JsOutcome.bind]

/-- Witness for C4 (amended) at concrete registries: a clean registry
filters normally; appending a throwing agent makes the call raise; the
health run over the throwing configuration raises. -/
theorem probe_error_propagation_witness :
    getInstalledAgents [sampleAgent] = .ok [sampleAgent]
    ∧ getInstalledAgents [sampleAgent, throwingAgent] = .thrown "probe failure"
    ∧ runHealthChecks throwingEnv (some "pw") = .thrown "probe failure" := by
  refine ⟨?_, ?_, ?_⟩
  · exact probe_error_propagation.1 [sampleAgent]
      (by intro x hx s; simp at hx; subst hx; simp [sampleAgent])
  · exact probe_error_propagation.2.1 [sampleAgent] [] throwingAgent "probe failure"
      (by intro x hx s; simp at hx; subst hx; simp [sampleAgent]) rfl
  · exact probe_error_propagation.2.2 throwingEnv
      {id := "bad", dataDir := none, enabled := true, excludes := none} []
      throwingAgent "probe failure" (some "pw") throwingConfig rfl rfl (by decide) rfl

/-- Lemma: the category resolver logs no engine-invocation events. -/
theorem getCategoryIncludes_no_engine (registry : List AgentDefinition)
    (agentId : String) (only : Option String) (p : String) (tg ex : List String)
    (inc : Option (List String)) (dr : Bool) :
    Event.engineBackup p tg ex inc dr ∉ (getCategoryIncludes registry agentId only).1 := by
  by_cases ht : truthy only
  · cases hreg : getAgent registry agentId with
    | none => simp [getCategoryIncludes, ht, hreg]
    | some d =>
      cases hrule : lookupCategory d.categories (only.getD "") with
      | undefinedVal => simp [getCategoryIncludes, ht, hreg, hrule]
      | inherited => simp [getCategoryIncludes, ht, hreg, hrule]
      | rule r => simp [getCategoryIncludes, ht, hreg, hrule]
  · simp [getCategoryIncludes, ht]

/-- Lemma: every engine invocation recorded by the per-directory
backup loop carried exactly the tag set
`["agentstash", id] (++ category when requested)` and exactly the
exclude concatenation (definition excludes, per-agent config excludes,
global excludes). -/
theorem backupDirs_engine_events (env : BackupEnv) (agentDef : AgentDefinition)
    (ac : AgentConfig) (opts : BackupOptions) (gx : List String) :
    ∀ (dirs : List DataDir) (p : String) (tg ex : List String)
      (inc : Option (List String)) (dr : Bool),
    Event.engineBackup p tg ex inc dr ∈ (backupDirs env agentDef ac opts gx dirs).1 →
    tg = ["agentstash", ac.id] ++ (if truthy opts.only then [opts.only.getD ""] else [])
    ∧ ex = agentDef.excludes ++ ac.excludes.getD [] ++ gx := by
  intro dirs
  induction dirs with
  | nil => intro p tg ex inc dr h; simp [backupDirs] at h
  | cons dd rest ih =>
    intro p tg ex inc dr h
    rw [backupDirs] at h
    by_cases hex : env.pathExists (expandHome env.home dd.path)
    · simp only [hex, Bool.not_true, Bool.false_eq_true, if_false] at h
      cases hco : (getCategoryIncludes env.registry ac.id opts.only).2 with
      | thrown e =>
        rw [hco] at h
        exact absurd h (getCategoryIncludes_no_engine env.registry ac.id opts.only p tg ex inc dr)
      | exited c =>
        rw [hco] at h
        exact absurd h (getCategoryIncludes_no_engine env.registry ac.id opts.only p tg ex inc dr)
      | ok includes =>
        rw [hco] at h
        dsimp only at h
        cases heng : env.engine (expandHome env.home dd.path)
            (["agentstash", ac.id] ++ (if truthy opts.only then [opts.only.getD ""] else []))
            (agentDef.excludes ++ ac.excludes.getD [] ++ gx) includes opts.dryRun with
        | error err =>
          rw [heng] at h
          rcases List.mem_append.mp h with hc | hrest
          · exact absurd hc (getCategoryIncludes_no_engine env.registry ac.id opts.only p tg ex inc dr)
          · rcases List.mem_cons.mp hrest with heq | hrest2
            · injection heq with h1 h2 h3 h4 h5
              exact ⟨h2, h3⟩
            · rcases List.mem_cons.mp hrest2 with heq2 | hrest3
              · exact absurd heq2 (by simp)
              · exact ih p tg ex inc dr hrest3
        | ok summary =>
          rw [heng] at h
          rcases List.mem_append.mp h with hc | hrest
          · exact absurd hc (getCategoryIncludes_no_engine env.registry ac.id opts.only p tg ex inc dr)
          · rcases List.mem_cons.mp hrest with heq | hrest2
            · injection heq with h1 h2 h3 h4 h5
              exact ⟨h2, h3⟩
            · exact ih p tg ex inc dr hrest2
    · simp only [hex, Bool.not_false, if_true] at h
      rcases List.mem_cons.mp h with heq | hrest
      · exact absurd heq (by simp)
      · exact ih p tg ex inc dr hrest

/-- Lemma: the liveness advisory logs no engine-invocation events. -/
theorem runningWarnings_no_engine (d : AgentDefinition) (p : String) (tg ex : List String)
    (inc : Option (List String)) (dr : Bool) :
    Event.engineBackup p tg ex inc dr ∉ runningWarnings d := by
  cases h : d.isRunning with
  | none => simp [runningWarnings, h]
  | some pr =>
    cases pr with
    | exn e => simp [runningWarnings, h]
    | ok b => cases b <;> simp [runningWarnings, h]

/-- Lemma: `backupDirs_engine_events` lifted to `backupAgent`. -/
theorem backupAgent_engine_events (env : BackupEnv) (gx : List String) (ac : AgentConfig)
    (opts : BackupOptions) (p : String) (tg ex : List String)
    (inc : Option (List String)) (dr : Bool) (d : AgentDefinition)
    (hreg : getAgent env.registry ac.id = some d)
    (hmem : Event.engineBackup p tg ex inc dr ∈ (backupAgent env gx ac opts).1) :
    tg = ["agentstash", ac.id] ++ (if truthy opts.only then [opts.only.getD ""] else [])
    ∧ ex = d.excludes ++ ac.excludes.getD [] ++ gx := by
  rw [backupAgent, hreg] at hmem
  dsimp only at hmem
  cases hrun : d.isRunning with
  | none =>
    rw [hrun] at hmem
    dsimp only at hmem
    rcases List.mem_append.mp hmem with hw | hd
    · exact absurd hw (runningWarnings_no_engine d p tg ex inc dr)
    · exact backupDirs_engine_events env d ac opts gx (effectiveDirs d ac) p tg ex inc dr hd
  | some pr =>
    cases pr with
    | exn e =>
      rw [hrun] at hmem
      simp at hmem
    | ok b =>
      rw [hrun] at hmem
      dsimp only at hmem
      rcases List.mem_append.mp hmem with hw | hd
      · exact absurd hw (runningWarnings_no_engine d p tg ex inc dr)
      · exact backupDirs_engine_events env d ac opts gx (effectiveDirs d ac) p tg ex inc dr hd

/-- C7: the tag set passed to the backup engine for every directory of
an agent is exactly `{"agentstash", id}` when no category filter is
requested, and exactly `{"agentstash", id, category}` when one is —
never any other tags. -/
theorem backup_tags_exact (env : BackupEnv) (gx : List String) (ac : AgentConfig)
    (opts : BackupOptions) (p : String) (tg ex : List String)
    (inc : Option (List String)) (dr : Bool)
    (hmem : Event.engineBackup p tg ex inc dr ∈ (backupAgent env gx ac opts).1) :
    (truthy opts.only = false → tg = ["agentstash", ac.id])
    ∧ (∀ c, opts.only = some c → truthy opts.only = true →
        tg = ["agentstash", ac.id, c]) := by
  cases hreg : getAgent env.registry ac.id with
  | none =>
    rw [backupAgent, hreg] at hmem
    dsimp only at hmem
    simp at hmem
  | some d =>
    have h := (backupAgent_engine_events env gx ac opts p tg ex inc dr d hreg hmem).1
    constructor
    · intro honly; rw [h, honly]; simp
    · intro c hc ht; rw [h, ht, hc]; simp

/-- C9: the exclude set passed to the engine for every backed-up
directory is the concatenation, in this order, of the agent
definition's excludes, the per-agent config excludes (empty when
absent), and the global config excludes, duplicates preserved. -/
theorem backup_excludes_exact (env : BackupEnv) (gx : List String) (ac : AgentConfig)
    (opts : BackupOptions) (p : String) (tg ex : List String)
    (inc : Option (List String)) (dr : Bool) (d : AgentDefinition)
    (hreg : getAgent env.registry ac.id = some d)
    (hmem : Event.engineBackup p tg ex inc dr ∈ (backupAgent env gx ac opts).1) :
    ex = d.excludes ++ ac.excludes.getD [] ++ gx :=
  (backupAgent_engine_events env gx ac opts p tg ex inc dr d hreg hmem).2

/-- Witness for C7: concrete engine invocations with and without
`--only secrets` carry exactly the claimed tag sets. -/
theorem backup_tags_exact_witness :
    Event.engineBackup "/home/u/.claude" ["agentstash", "claude-code", "secrets"]
        ["projects/**/node_modules/**", "extra/**", "g/**"]
        (some [".credentials.json"]) false
      ∈ (backupAgent envAB ["g/**"] sampleAC
          {sampleOpts with only := some "secrets"}).1
    ∧ (["agentstash", "claude-code", "secrets"] : List String)
      = ["agentstash", "claude-code", "secrets"]
    ∧ Event.engineBackup "/home/u/.claude" ["agentstash", "claude-code"]
        ["projects/**/node_modules/**", "extra/**", "g/**"] none false
      ∈ (backupAgent envAB ["g/**"] sampleAC sampleOpts).1
    ∧ (["agentstash", "claude-code"] : List String) = ["agentstash", "claude-code"] :=
  ⟨by decide,
   (backup_tags_exact envAB ["g/**"] sampleAC {sampleOpts with only := some "secrets"}
      "/home/u/.claude" ["agentstash", "claude-code", "secrets"]
      ["projects/**/node_modules/**", "extra/**", "g/**"]
      (some [".credentials.json"]) false (by decide)).2 "secrets" rfl (by decide),
   by decide,
   (backup_tags_exact envAB ["g/**"] sampleAC sampleOpts
      "/home/u/.claude" ["agentstash", "claude-code"]
      ["projects/**/node_modules/**", "extra/**", "g/**"] none false
      (by decide)).1 (by decide)⟩

/-- Witness for C9: a concrete engine invocation carries exactly the
three-part exclude concatenation. -/
theorem backup_excludes_exact_witness :
    Event.engineBackup "/home/u/.claude" ["agentstash", "claude-code"]
        ["projects/**/node_modules/**", "extra/**", "g/**"] none false
      ∈ (backupAgent envAB ["g/**"] sampleAC sampleOpts).1
    ∧ (["projects/**/node_modules/**", "extra/**", "g/**"] : List String)
      = ["projects/**/node_modules/**"] ++ ["extra/**"] ++ ["g/**"] :=
  ⟨by decide,
   backup_excludes_exact envAB ["g/**"] sampleAC sampleOpts
      "/home/u/.claude" ["agentstash", "claude-code"]
      ["projects/**/node_modules/**", "extra/**", "g/**"] none false
      sampleAgent (by decide) (by decide)⟩

/-- Lemma: engine-invocation paths distribute over trace
concatenation. -/
theorem enginePaths_append (l₁ l₂ : List Event) :
    enginePaths (l₁ ++ l₂) = enginePaths l₁ ++ enginePaths l₂ := by
  induction l₁ with
  | nil => rfl
  | cons e rest ih => cases e <;> simp [enginePaths, ih]

/-- Lemma: the liveness advisory contributes no engine paths. -/
theorem enginePaths_runningWarnings (d : AgentDefinition) :
    enginePaths (runningWarnings d) = [] := by
  cases h : d.isRunning with
  | none => simp [runningWarnings, h, enginePaths]
  | some pr =>
    cases pr with
    | exn e => simp [runningWarnings, h, enginePaths]
    | ok b => cases b <;> simp [runningWarnings, h, enginePaths]

/-- Lemma: with no truthy category flag the resolver is silent and
returns the no-filter signal. -/
theorem getCategoryIncludes_nofilter (registry : List AgentDefinition)
    (agentId : String) (only : Option String) (h : truthy only = false) :
    getCategoryIncludes registry agentId only = ([], .ok none) := by
  simp [getCategoryIncludes, h]

/-- Lemma: the per-directory loop never raises or exits (without a
category flag), invokes the engine exactly on the directories that
exist, and warns on each missing directory — for every engine
behaviour, so an engine failure never stops the loop. -/
theorem backupDirs_isolation (env : BackupEnv) (agentDef : AgentDefinition)
    (ac : AgentConfig) (opts : BackupOptions) (gx : List String)
    (honly : truthy opts.only = false) :
    ∀ dirs : List DataDir,
    (backupDirs env agentDef ac opts gx dirs).2 = .ok ()
    ∧ enginePaths (backupDirs env agentDef ac opts gx dirs).1
      = (dirs.map (fun dd => expandHome env.home dd.path)).filter env.pathExists
    ∧ (∀ dd ∈ dirs, env.pathExists (expandHome env.home dd.path) = false →
        Event.warn ("Data directory not found: " ++ expandHome env.home dd.path
          ++ " (" ++ dd.description ++ ")") ∈ (backupDirs env agentDef ac opts gx dirs).1) := by
  intro dirs
  induction dirs with
  | nil => exact ⟨rfl, rfl, by simp⟩
  | cons dd rest ih =>
    obtain ⟨ihout, ihpaths, ihwarn⟩ := ih
    by_cases hex : env.pathExists (expandHome env.home dd.path)
    · rw [backupDirs]
      simp only [hex, Bool.not_true, Bool.false_eq_true, if_false,
        getCategoryIncludes_nofilter env.registry ac.id opts.only honly]
      cases heng : env.engine (expandHome env.home dd.path)
          (["agentstash", ac.id] ++ (if truthy opts.only then [opts.only.getD ""] else []))
          (agentDef.excludes ++ ac.excludes.getD [] ++ gx) none opts.dryRun with
      | error err =>
        refine ⟨ihout, ?_, ?_⟩
        · simp [enginePaths, ihpaths, List.filter, hex]
        · intro dd2 hdd2 hmiss
          rcases List.mem_cons.mp hdd2 with rfl | hmem2
          · rw [hmiss] at hex; simp at hex
          · simp [List.mem_cons, ihwarn dd2 hmem2 hmiss]
      | ok summary =>
        refine ⟨ihout, ?_, ?_⟩
        · simp [enginePaths, ihpaths, List.filter, hex]
        · intro dd2 hdd2 hmiss
          rcases List.mem_cons.mp hdd2 with rfl | hmem2
          · rw [hmiss] at hex; simp at hex
          · simp [List.mem_cons, ihwarn dd2 hmem2 hmiss]
    · rw [backupDirs]
      simp only [hex, Bool.not_false, if_true]
      refine ⟨ihout, ?_, ?_⟩
      · have hexf : env.pathExists (expandHome env.home dd.path) = false := by
          simpa using hex
        simp [enginePaths, ihpaths, List.filter, hexf]
      · intro dd2 hdd2 hmiss
        rcases List.mem_cons.mp hdd2 with rfl | hmem2
        · exact List.mem_cons_self _ _
        · exact List.mem_cons_of_mem _ (ihwarn dd2 hmem2 hmiss)

/-- Lemma: `backupDirs_isolation` lifted to one agent: an unregistered
agent yields a warning and no engine calls; otherwise the effective
directories drive the loop. -/
theorem backupAgent_isolation (env : BackupEnv) (gx : List String) (ac : AgentConfig)
    (opts : BackupOptions) (honly : truthy opts.only = false)
    (hsafe : ∀ a ∈ env.registry, runningProbeSafe a) :
    (backupAgent env gx ac opts).2 = .ok ()
    ∧ enginePaths (backupAgent env gx ac opts).1 = expectedEnginePaths env [ac]
    ∧ (getAgent env.registry ac.id = none →
        Event.warn ("Agent \"" ++ ac.id ++ "\" not found in registry, skipping")
          ∈ (backupAgent env gx ac opts).1)
    ∧ (∀ d, getAgent env.registry ac.id = some d →
        ∀ dd ∈ effectiveDirs d ac, env.pathExists (expandHome env.home dd.path) = false →
          Event.warn ("Data directory not found: " ++ expandHome env.home dd.path
            ++ " (" ++ dd.description ++ ")") ∈ (backupAgent env gx ac opts).1) := by
  cases hreg : getAgent env.registry ac.id with
  | none =>
    have hform : backupAgent env gx ac opts
        = ([.warn ("Agent \"" ++ ac.id ++ "\" not found in registry, skipping")],
           .ok ()) := by
      rw [backupAgent, hreg]
    rw [hform]
    refine ⟨rfl, ?_, ?_, ?_⟩
    · simp [expectedEnginePaths, hreg, enginePaths]
    · intro _; simp
    · intro d hd; exact Option.noConfusion hd
  | some d =>
    have hdmem : d ∈ env.registry := by
      have := List.find?_some hreg
      exact List.mem_of_find?_eq_some hreg
    have hdsafe := hsafe d hdmem
    obtain ⟨hout, hpaths, hwarn⟩ := backupDirs_isolation env d ac opts gx honly (effectiveDirs d ac)
    have hform : backupAgent env gx ac opts
        = (runningWarnings d ++ (backupDirs env d ac opts gx (effectiveDirs d ac)).1,
           (backupDirs env d ac opts gx (effectiveDirs d ac)).2) := by
      rw [backupAgent, hreg]
      dsimp only
      cases hrun : d.isRunning with
      | none => rfl
      | some pr =>
        cases pr with
        | exn e => exact absurd hrun (hdsafe e)
        | ok b => rfl
    rw [hform]
    refine ⟨hout, ?_, ?_, ?_⟩
    · simp only [enginePaths_append, enginePaths_runningWarnings, List.nil_append, hpaths]
      simp [expectedEnginePaths, hreg]
    · intro hcontra; exact Option.noConfusion hcontra
    · intro d2 hd2 dd hdd hmiss
      injection hd2 with hd2
      subst hd2
      exact List.mem_append_right _ (hwarn dd hdd hmiss)

/-- C6: backup failure isolation is per-directory: over any agent
list (no category filter, liveness probes that do not reject) the run
returns normally for every engine behaviour — engine failures are
caught per directory; the engine is invoked exactly on the existing
effective directories of registered agents in order; a missing
directory produces a warning and only that directory is skipped; an
unregistered agent produces a warning and is skipped. -/
theorem backup_failure_isolation (env : BackupEnv) (gx : List String)
    (opts : BackupOptions) (acs : List AgentConfig)
    (honly : truthy opts.only = false)
    (hsafe : ∀ a ∈ env.registry, runningProbeSafe a) :
    (runBackupAgents env gx opts acs).2 = .ok ()
    ∧ enginePaths (runBackupAgents env gx opts acs).1 = expectedEnginePaths env acs
    ∧ (∀ ac ∈ acs, getAgent env.registry ac.id = none →
        Event.warn ("Agent \"" ++ ac.id ++ "\" not found in registry, skipping")
          ∈ (runBackupAgents env gx opts acs).1)
    ∧ (∀ ac ∈ acs, ∀ d, getAgent env.registry ac.id = some d →
        ∀ dd ∈ effectiveDirs d ac, env.pathExists (expandHome env.home dd.path) = false →
          Event.warn ("Data directory not found: " ++ expandHome env.home dd.path
            ++ " (" ++ dd.description ++ ")") ∈ (runBackupAgents env gx opts acs).1) := by
  induction acs with
  | nil =>
    exact ⟨rfl, by simp [runBackupAgents, enginePaths, expectedEnginePaths], by simp, by simp⟩
  | cons ac rest ih =>
    obtain ⟨ihout, ihpaths, ihwarn1, ihwarn2⟩ := ih
    obtain ⟨aout, apaths, awarn1, awarn2⟩ := backupAgent_isolation env gx ac opts honly hsafe
    have hform : runBackupAgents env gx opts (ac :: rest)
        = ((backupAgent env gx ac opts).1 ++ (runBackupAgents env gx opts rest).1,
           (runBackupAgents env gx opts rest).2) := by
      rw [runBackupAgents, aout]
    rw [hform]
    refine ⟨ihout, ?_, ?_, ?_⟩
    · rw [enginePaths_append, apaths, ihpaths]
      simp [expectedEnginePaths]
    · intro ac2 hac2 hnone
      rcases List.mem_cons.mp hac2 with rfl | hmem
      · exact List.mem_append_left _ (awarn1 hnone)
      · exact List.mem_append_right _ (ihwarn1 ac2 hmem hnone)
    · intro ac2 hac2 d hd dd hdd hmiss
      rcases List.mem_cons.mp hac2 with rfl | hmem
      · exact List.mem_append_left _ (awarn2 d hd dd hdd hmiss)
      · exact List.mem_append_right _ (ihwarn2 ac2 hmem d hd dd hdd hmiss)

/-- Witness for C6 over agents [claude-code (dir exists), gemini (dir
missing)]: exactly one engine invocation (for the existing directory),
a missing-directory warning for the other, no raise — also when every
engine call fails. -/
theorem backup_failure_isolation_witness :
    (runBackupAgents envAB ["g/**"] sampleOpts [sampleAC, missingAC]).2 = .ok ()
    ∧ enginePaths (runBackupAgents envAB ["g/**"] sampleOpts [sampleAC, missingAC]).1
      = ["/home/u/.claude"]
    ∧ Event.warn "Data directory not found: /home/u/.gemini (Gemini CLI data directory)"
      ∈ (runBackupAgents envAB ["g/**"] sampleOpts [sampleAC, missingAC]).1
    ∧ (runBackupAgents envABfail ["g/**"] sampleOpts [sampleAC, missingAC]).2 = .ok ()
    ∧ enginePaths (runBackupAgents envABfail ["g/**"] sampleOpts [sampleAC, missingAC]).1
      = ["/home/u/.claude"] := by
  have hsafe1 : ∀ a ∈ envAB.registry, runningProbeSafe a := by
    intro a ha e
    simp [envAB] at ha
    rcases ha with rfl | rfl <;> simp [sampleAgent, missingDirAgent]
  have hsafe2 : ∀ a ∈ envABfail.registry, runningProbeSafe a := by
    intro a ha e
    simp [envABfail] at ha
    rcases ha with rfl | rfl <;> simp [sampleAgent, missingDirAgent]
  have h1 := backup_failure_isolation envAB ["g/**"] sampleOpts [sampleAC, missingAC]
    (by decide) hsafe1
  have h2 := backup_failure_isolation envABfail ["g/**"] sampleOpts [sampleAC, missingAC]
    (by decide) hsafe2
  refine ⟨h1.1, ?_, ?_, h2.1, ?_⟩
  · rw [h1.2.1]; decide
  · exact h1.2.2.2 missingAC (by decide) missingDirAgent (by decide)
      {path := "~/.gemini", description := "Gemini CLI data directory", critical := true}
      (by decide) (by decide)
  · rw [h2.2.1]; decide

end Agentstash
